import Mathlib

/-!
Shallow embedding of the scheduling-view core of the `obsidian-time-ruler`
plugin: the Timeline bucketer (`src/components/Event.tsx`), the hierarchy
grouper's leaf-rendering rule (`Group`), and the store's mutation gateway
(`setters.patchTasks`, `setters.set`, `App`'s `onDragCancel`).

Strings model JavaScript strings; ISO timestamps are compared
lexicographically, exactly as the source compares them with `<`, `>=`, `<=`.
Optional record fields are modelled as `Option String` / `Option Bool`,
where `none` is an absent (JS `undefined`) field.
-/

namespace TimeRuler

/-- JS truthiness of an optional string field: `undefined` and the empty
string are falsy, every other string is truthy. -/
def jsTruthyS : Option String → Bool
  | none => false
  | some s => !(s == "")

/-- The string value of an optional field, for the comparisons the source
performs after a truthiness guard (absent fields compare as `""`). -/
def sval (o : Option String) : String := o.getD ""

/-- Lexicographic order on character lists, by code point — the order JS
applies to strings (for the ASCII ISO timestamps compared here,
code-unit and code-point order agree). -/
def charListLt : List Char → List Char → Bool
  | [], [] => false
  | [], _ :: _ => true
  | _ :: _, [] => false
  | a :: as, b :: bs =>
    if a.toNat < b.toNat then true
    else if b.toNat < a.toNat then false
    else charListLt as bs

/-- JS `<` on strings (lexicographic). -/
def jsLt (a b : String) : Bool := charListLt a.data b.data

/-- JS `<=` on strings (lexicographic; strings are totally ordered, so
`a <= b` is `!(b < a)`). -/
def jsLe (a b : String) : Bool := !charListLt b.data a.data

/-- A task record as held in the store's `tasks` table
(`TaskProps`: id, type, scheduled, due, completed, completion, parent). -/
structure TaskProps where
  id : String
  type : String := "task"
  scheduled : Option String := none
  due : Option String := none
  completed : Bool := false
  completion : Option String := none
  parent : Option String := none
deriving DecidableEq, Repr

/-- A calendar event record (`EventProps`). -/
structure EventProps where
  id : String
  startISO : String
  endISO : String
  title : String := ""
  location : String := ""
  notes : String := ""
  type : String := "event"
deriving DecidableEq, Repr

/-- Modelled from the spec: `isCompleted` is imported from
`../services/util`, which is not among the included sources. Per the spec,
"(1) a completed task is excluded entirely" keys on the task's `completed`
flag. -/
def isCompleted (task : TaskProps) : Bool := task.completed

/-- Modelled from the spec: `isDateISO` is imported from
`../services/util`, which is not among the included sources. Per the spec,
a value is date-only when it is "a bare date rather than a date-time",
i.e. it carries no time component. -/
def isDateISO (s : String) : Bool := !(s.contains 'T')

/-- The `scheduledForToday` value from the Timeline bucketer
(`src/components/Event.tsx`):
`!isCompleted(task) && task.scheduled && task.scheduled < endISO &&
(isToday || task.scheduled >= startISO)`. -/
def scheduledForToday (isToday : Bool) (startISO endISO : String)
    (task : TaskProps) : Bool :=
  !isCompleted task && jsTruthyS task.scheduled &&
    jsLt (sval task.scheduled) endISO &&
    (isToday || jsLe startISO (sval task.scheduled))

/-- The due-branch guard of the Timeline bucketer:
`!scheduledForToday && task.due && !isCompleted(task) &&
(task.due >= startISO || (isToday && task.due < endISO)) &&
(!task.scheduled || task.scheduled < endISO)`. -/
def dueFilter (isToday : Bool) (startISO endISO : String)
    (task : TaskProps) : Bool :=
  !scheduledForToday isToday startISO endISO task &&
    jsTruthyS task.due && !isCompleted task &&
    (jsLe startISO (sval task.due) ||
      (isToday && jsLt (sval task.due) endISO)) &&
    (!jsTruthyS task.scheduled || jsLt (sval task.scheduled) endISO)

/-- The `_.forEach` classification loop of the Timeline bucketer: pushes
each task into `dueTasks`, or (when `scheduledForToday`) into `tasks`
(timed, `task.scheduled > startISO`) or `allDayTasks` (otherwise).
Returns `(tasks, dueTasks, allDayTasks)` in the order of the source's
`return [tasks, dueTasks, allDayTasks]`. -/
def classifyGo (isToday : Bool) (startISO endISO : String) :
    List TaskProps → List TaskProps × List TaskProps × List TaskProps
  | [] => ([], [], [])
  | task :: rest =>
    let (tasks, dueTasks, allDayTasks) := classifyGo isToday startISO endISO rest
    if dueFilter isToday startISO endISO task then
      (tasks, task :: dueTasks, allDayTasks)
    else if scheduledForToday isToday startISO endISO task then
      if jsLt startISO (sval task.scheduled) then
        (task :: tasks, dueTasks, allDayTasks)
      else
        (tasks, dueTasks, task :: allDayTasks)
    else
      (tasks, dueTasks, allDayTasks)

/-- Modelled from the spec: `removeNestedChildren` is imported from
`../services/util`, which is not among the included sources. Per the spec,
an all-day item is pruned when "its ancestor chain reaches a
timed-scheduled item"; the chain follows `parent` ids through the all-day
list. `reachesScheduled pool ids fuel t` decides whether `t`'s ancestor
chain (of length at most `fuel`, resolved against `pool`) reaches an id in
`ids`. -/
def reachesScheduled (pool : List TaskProps) (ids : List String) :
    Nat → TaskProps → Bool
  | 0, _ => false
  | fuel + 1, t =>
    match t.parent with
    | none => false
    | some p =>
      ids.contains p ||
        (match pool.find? (fun u => u.id == p) with
         | none => false
         | some u => reachesScheduled pool ids fuel u)

/-- Modelled from the spec: the pruning pass the bucketer performs with
`removeNestedChildren` over every `scheduledParents` id. Per the spec,
"every all-day item whose id equals the id of a task already placed in
the timed-scheduled group is pruned from all-day ..., and any all-day item
whose ancestor chain reaches a timed-scheduled item is likewise pruned". -/
def pruneNestedChildren (ids : List String) (allDayTasks : List TaskProps) :
    List TaskProps :=
  allDayTasks.filter (fun t =>
    !(ids.contains t.id ||
      reachesScheduled allDayTasks ids allDayTasks.length t))

/-- The full task-bucketing selector of `Timeline`
(`src/components/Event.tsx` lines 204-239): classify every task, then
prune the all-day group by the ids of the timed group
(`scheduledParents`). -/
def timelineTasks (isToday : Bool) (startISO endISO : String)
    (taskList : List TaskProps) :
    List TaskProps × List TaskProps × List TaskProps :=
  let (tasks, dueTasks, allDayTasks) := classifyGo isToday startISO endISO taskList
  let scheduledParents := tasks.map (fun t => t.id)
  (tasks, dueTasks, pruneNestedChildren scheduledParents allDayTasks)

/-- The event filter of `Timeline` (`src/components/Event.tsx` lines
188-199): keep events unless
`event.endISO <= startISO || event.startISO >= endISO ||
event.endISO <= now`. -/
def timelineEvents (now startISO endISO : String)
    (events : List EventProps) : List EventProps :=
  events.filter (fun ev =>
    !(jsLe ev.endISO startISO || jsLe endISO ev.startISO ||
      jsLe ev.endISO now))

/-- The all-day split of the filtered events: events whose `startISO` is a
bare date. -/
def allDayEvents (now startISO endISO : String)
    (events : List EventProps) : List EventProps :=
  (timelineEvents now startISO endISO events).filter
    (fun ev => isDateISO ev.startISO)

/-- The timed split of the filtered events: events whose `startISO` carries
a time of day. -/
def atTimeEvents (now startISO endISO : String)
    (events : List EventProps) : List EventProps :=
  (timelineEvents now startISO endISO events).filter
    (fun ev => !isDateISO ev.startISO)

/-- A dynamic task record as passed around by the mutation gateway
(`src/app/store`): a JS object in which every `TaskProps` field may be
absent. `Partial<TaskProps>` patches and the merged `savedTask` records
both have this shape. -/
structure TaskRecord where
  id : Option String := none
  type : Option String := none
  scheduled : Option String := none
  due : Option String := none
  completed : Option Bool := none
  completion : Option String := none
  parent : Option String := none
deriving DecidableEq, Repr

/-- The dynamic record of a stored task: every field present. -/
def toRecord (t : TaskProps) : TaskRecord :=
  { id := some t.id, type := some t.type, scheduled := t.scheduled,
    due := t.due, completed := some t.completed,
    completion := t.completion, parent := t.parent }

/-- JS object spread `{ ...base, ...patch }`: a field present in `patch`
overrides the one in `base`. -/
def spreadMerge (base patch : TaskRecord) : TaskRecord :=
  { id := patch.id.orElse (fun _ => base.id),
    type := patch.type.orElse (fun _ => base.type),
    scheduled := patch.scheduled.orElse (fun _ => base.scheduled),
    due := patch.due.orElse (fun _ => base.due),
    completed := patch.completed.orElse (fun _ => base.completed),
    completion := patch.completion.orElse (fun _ => base.completion),
    parent := patch.parent.orElse (fun _ => base.parent) }

/-- Model of `getters.getTask`: `useAppStore.getState().tasks[id]` — lookup in the
keyed task table, `none` when the id has no record. -/
def lookupTask (tasks : List (String × TaskProps)) (id : String) :
    Option TaskProps :=
  (tasks.find? (fun p => p.1 == id)).map (fun p => p.2)

namespace TaskActions

/-- Modelled from the spec: the sentinel "delete schedule" value
(`TaskActions.DELETE` from `src/types/enums`, which is not among the
included sources); `patchTasks` "special-cases a sentinel delete-schedule
value by removing the `scheduled` field entirely". The concrete string is
immaterial; only its identity is compared. -/
def DELETE : String := "delete"

end TaskActions

/-- The per-id body of `setters.patchTasks`:
`const savedTask = { ...getters.getTask(id), ...task };
if (task.scheduled === TaskActions.DELETE) delete savedTask.scheduled`.
A missing record spreads as the empty object. -/
def savedTaskFor (tasks : List (String × TaskProps)) (task : TaskRecord)
    (id : String) : TaskRecord :=
  let base :=
    match lookupTask tasks id with
    | some t => toRecord t
    | none => {}
  let savedTask := spreadMerge base task
  if task.scheduled == some TaskActions.DELETE then
    { savedTask with scheduled := none }
  else savedTask

/-- The `for (let id of ids)` loop of `setters.patchTasks`. `saveOk`
models the external `obsidianAPI.saveTask` collaborator: `true` means the
awaited write resolves, `false` means it rejects. Each iteration builds
`savedTask` and awaits the write; a rejection propagates out of the
`async` function, so the loop stops — later ids are never reached.
Returns the list of attempted writes (record, resolved?) and the id whose
write rejected, if any. -/
def patchTasksGo (saveOk : TaskRecord → Bool)
    (tasks : List (String × TaskProps)) (task : TaskRecord) :
    List String → List (TaskRecord × Bool) × Option String
  | [] => ([], none)
  | id :: rest =>
    let savedTask := savedTaskFor tasks task id
    if saveOk savedTask then
      let (ws, e) := patchTasksGo saveOk tasks task rest
      ((savedTask, true) :: ws, e)
    else ([(savedTask, false)], some id)

/-- The observable outcome of one `setters.patchTasks(ids, task)` call:
the writes issued to the Task Store collaborator in order (with their
resolution), the id whose write rejected (if any, the rejection
propagates to the caller), and whether the trailing
`if (task.completion) obsidianAPI.playComplete()` ran. -/
structure PatchResult where
  writes : List (TaskRecord × Bool)
  err : Option String
  playedComplete : Bool
deriving DecidableEq, Repr

/-- Model of `setters.patchTasks(ids, task)` over a store whose task table is
`tasks`, with the collaborator's save behaviour `saveOk`. -/
def patchTasks (saveOk : TaskRecord → Bool)
    (tasks : List (String × TaskProps)) (ids : List String)
    (task : TaskRecord) : PatchResult :=
  let (ws, e) := patchTasksGo saveOk tasks task ids
  { writes := ws, err := e,
    playedComplete := e.isNone && jsTruthyS task.completion }

/-- The transient drag payload (`DragData`); its contents are irrelevant
to the store-level claims, only the slot's presence matters. -/
structure DragData where
  dragType : String
deriving DecidableEq, Repr

/-- The store state (`AppState` from `src/app/store`). The two API
handles are external collaborator references and carry no data the core
reads, so they are omitted; every data field is present. -/
structure AppState where
  tasks : List (String × TaskProps)
  events : List (String × EventProps)
  dragData : Option DragData
  findingTask : Option String
  inScroll : Int
  searchStatus : Option String
  calendarMode : Bool
  dailyNoteFormat : String
  dailyNotePath : String
  fileOrder : List String
  newTask : Option TaskRecord
  dayStartEnd : Int × Int
  hideHeadings : Bool
  muted : Bool
  twentyFourHourFormat : Bool
  collapsed : List (String × Bool)
deriving DecidableEq, Repr

/-- A `Partial<AppState>` as accepted by `setters.set`. -/
structure AppStatePatch where
  tasks : Option (List (String × TaskProps)) := none
  events : Option (List (String × EventProps)) := none
  dragData : Option (Option DragData) := none
  findingTask : Option (Option String) := none
  inScroll : Option Int := none
  searchStatus : Option (Option String) := none
  calendarMode : Option Bool := none
  dailyNoteFormat : Option String := none
  dailyNotePath : Option String := none
  fileOrder : Option (List String) := none
  newTask : Option (Option TaskRecord) := none
  dayStartEnd : Option (Int × Int) := none
  hideHeadings : Option Bool := none
  muted : Option Bool := none
  twentyFourHourFormat : Option Bool := none
  collapsed : Option (List (String × Bool)) := none

/-- Model of `setters.set(newState)`: the store's `setState` merges the partial
state shallowly into the current state (fields absent from the partial
are untouched). -/
def settersSet (p : AppStatePatch) (s : AppState) : AppState :=
  { tasks := p.tasks.getD s.tasks,
    events := p.events.getD s.events,
    dragData := p.dragData.getD s.dragData,
    findingTask := p.findingTask.getD s.findingTask,
    inScroll := p.inScroll.getD s.inScroll,
    searchStatus := p.searchStatus.getD s.searchStatus,
    calendarMode := p.calendarMode.getD s.calendarMode,
    dailyNoteFormat := p.dailyNoteFormat.getD s.dailyNoteFormat,
    dailyNotePath := p.dailyNotePath.getD s.dailyNotePath,
    fileOrder := p.fileOrder.getD s.fileOrder,
    newTask := p.newTask.getD s.newTask,
    dayStartEnd := p.dayStartEnd.getD s.dayStartEnd,
    hideHeadings := p.hideHeadings.getD s.hideHeadings,
    muted := p.muted.getD s.muted,
    twentyFourHourFormat := p.twentyFourHourFormat.getD s.twentyFourHourFormat,
    collapsed := p.collapsed.getD s.collapsed }

/-- The `DndContext.onDragCancel` handler in `App` (`src/components/App.tsx`):
`() => setters.set({ dragData: null })`. -/
def onDragCancel (s : AppState) : AppState :=
  settersSet { dragData := some none } s

/-- The leaf-rendering guard of `Group` (heading level): an item renders as
a `TaskLink` when
`['parent', 'link'].includes(task.type) ||
(task.scheduled && (!scheduled || task.scheduled > scheduled))`,
and as a full `Task` row otherwise. `scheduled` is the block's nominal
scheduled time (`string | null`). -/
def groupRendersAsLink (scheduled : Option String) (task : TaskProps) :
    Bool :=
  (task.type == "parent" || task.type == "link") ||
    (jsTruthyS task.scheduled &&
      (!jsTruthyS scheduled || jsLt (sval scheduled) (sval task.scheduled)))

/-- The timed-group test applied inside the scheduled branch:
`scheduledForToday && task.scheduled > startISO`. -/
def timedPred (isToday : Bool) (startISO endISO : String)
    (task : TaskProps) : Bool :=
  scheduledForToday isToday startISO endISO task &&
    jsLt startISO (sval task.scheduled)

/-- The all-day test applied inside the scheduled branch:
`scheduledForToday && !(task.scheduled > startISO)`. -/
def allDayPred (isToday : Bool) (startISO endISO : String)
    (task : TaskProps) : Bool :=
  scheduledForToday isToday startISO endISO task &&
    !jsLt startISO (sval task.scheduled)

theorem dueFilter_not_scheduled {isToday : Bool} {s e : String}
    {t : TaskProps} (h : dueFilter isToday s e t = true) :
    scheduledForToday isToday s e t = false := by
  simp only [dueFilter, Bool.and_eq_true, Bool.not_eq_true'] at h
  tauto

/-- The classification loop is the triple of filters by the three
branch guards. -/
theorem classifyGo_eq (isToday : Bool) (s e : String)
    (l : List TaskProps) :
    classifyGo isToday s e l =
      (l.filter (timedPred isToday s e),
       l.filter (dueFilter isToday s e),
       l.filter (allDayPred isToday s e)) := by
  induction l with
  | nil => rfl
  | cons t rest ih =>
    simp only [classifyGo, ih]
    by_cases hd : dueFilter isToday s e t
    · have hs := dueFilter_not_scheduled hd
      simp [List.filter_cons, hd, timedPred, allDayPred, hs]
    · by_cases hs : scheduledForToday isToday s e t
      · by_cases hl : jsLt s (sval t.scheduled)
        · simp [List.filter_cons, hd, timedPred, allDayPred, hs, hl,
            Bool.eq_false_iff.mpr hd]
        · simp [List.filter_cons, hd, timedPred, allDayPred, hs, hl,
            Bool.eq_false_iff.mpr hd]
      · simp [List.filter_cons, hd, timedPred, allDayPred,
          Bool.eq_false_iff.mpr hd, Bool.eq_false_iff.mpr hs]

/-- The spec's scheduled-for-this-window predicate, stated from its
words: the task "has a `scheduled` value less than window end AND
(window covers today OR `scheduled >= window start`)". -/
def specScheduledForWindow (isToday : Bool) (startISO endISO : String)
    (task : TaskProps) : Prop :=
  ∃ v, task.scheduled = some v ∧ v ≠ "" ∧ jsLt v endISO = true ∧
    (isToday = true ∨ jsLe startISO v = true)

theorem scheduledForToday_iff_spec {isToday : Bool} {s e : String}
    {t : TaskProps} (hnc : isCompleted t = false) :
    scheduledForToday isToday s e t = true ↔
      specScheduledForWindow isToday s e t := by
  unfold scheduledForToday specScheduledForWindow jsTruthyS sval
  cases h : t.scheduled with
  | none => simp [h, hnc]
  | some v =>
    simp only [h, hnc, Bool.not_false, Bool.true_and, Option.some.injEq,
      Bool.and_eq_true, Bool.or_eq_true, Bool.not_eq_true',
      beq_eq_false_iff_ne, exists_eq_left, exists_eq_left',
      Option.getD_some]
    tauto

theorem mem_classify_timed {isToday : Bool} {s e : String}
    {ts : List TaskProps} {t : TaskProps} (hmem : t ∈ ts) :
    t ∈ (classifyGo isToday s e ts).1 ↔ timedPred isToday s e t = true := by
  rw [classifyGo_eq]
  simp [List.mem_filter, hmem]

theorem mem_classify_due {isToday : Bool} {s e : String}
    {ts : List TaskProps} {t : TaskProps} (hmem : t ∈ ts) :
    t ∈ (classifyGo isToday s e ts).2.1 ↔
      dueFilter isToday s e t = true := by
  rw [classifyGo_eq]
  simp [List.mem_filter, hmem]

theorem mem_classify_allDay {isToday : Bool} {s e : String}
    {ts : List TaskProps} {t : TaskProps} (hmem : t ∈ ts) :
    t ∈ (classifyGo isToday s e ts).2.2 ↔
      allDayPred isToday s e t = true := by
  rw [classifyGo_eq]
  simp [List.mem_filter, hmem]

/-- C1. For every non-completed task in the store, the Timeline bucketer's
classification stage marks it scheduled-for-the-window exactly when its
`scheduled` value is set (non-empty) and less than the window end AND
(the window covers today OR `scheduled >= startISO`); among the
scheduled-for-the-window tasks it is placed in the timed group (`tasks`)
when `scheduled` is strictly greater than `startISO` and in the all-day
group (`allDayTasks`, as classified, before the nested-children pruning of
C2) otherwise. -/
theorem timeline_scheduled_window_classification (isToday : Bool)
    (s e : String) (ts : List TaskProps) (t : TaskProps) (hmem : t ∈ ts)
    (hnc : isCompleted t = false) :
    ((t ∈ (classifyGo isToday s e ts).1 ∨
        t ∈ (classifyGo isToday s e ts).2.2) ↔
      specScheduledForWindow isToday s e t) ∧
    (t ∈ (classifyGo isToday s e ts).1 ↔
      (specScheduledForWindow isToday s e t ∧
        jsLt s (sval t.scheduled) = true)) ∧
    (t ∈ (classifyGo isToday s e ts).2.2 ↔
      (specScheduledForWindow isToday s e t ∧
        ¬ jsLt s (sval t.scheduled) = true)) := by
  have hspec := @scheduledForToday_iff_spec isToday s e t hnc
  have h1 := @mem_classify_timed isToday s e ts t hmem
  have h2 := @mem_classify_allDay isToday s e ts t hmem
  rw [timedPred, Bool.and_eq_true, hspec] at h1
  rw [allDayPred, Bool.and_eq_true, hspec, Bool.not_eq_true',
    ← Bool.not_eq_true] at h2
  refine ⟨?_, h1, h2⟩
  rw [h1, h2]
  constructor
  · rintro (⟨h, _⟩ | ⟨h, _⟩) <;> exact h
  · intro h
    by_cases hlt : jsLt s (sval t.scheduled) = true
    · exact Or.inl ⟨h, hlt⟩
    · exact Or.inr ⟨h, hlt⟩

/-- Witness for C1: a task scheduled at `2024-01-10T09:00` in the window
`[2024-01-10, 2024-01-11)` (not today) is scheduled-for-the-window and
lands in the timed group. -/
theorem timeline_scheduled_window_classification_witness :
    ({ id := "t1", scheduled := some "2024-01-10T09:00" } : TaskProps) ∈
      (classifyGo false "2024-01-10" "2024-01-11"
        [{ id := "t1", scheduled := some "2024-01-10T09:00" }]).1 :=
  (timeline_scheduled_window_classification false "2024-01-10" "2024-01-11"
    [{ id := "t1", scheduled := some "2024-01-10T09:00" }]
    { id := "t1", scheduled := some "2024-01-10T09:00" }
    (by decide) rfl).2.1.mpr
    ⟨⟨"2024-01-10T09:00", rfl, by decide, by decide,
      Or.inr (by decide)⟩, by decide⟩

theorem timelineTasks_eq (isToday : Bool) (s e : String)
    (ts : List TaskProps) :
    timelineTasks isToday s e ts =
      ((classifyGo isToday s e ts).1, (classifyGo isToday s e ts).2.1,
        pruneNestedChildren
          ((classifyGo isToday s e ts).1.map (fun t => t.id))
          ((classifyGo isToday s e ts).2.2)) := rfl

/-- C4. For every task with `completed` true and every window, the
bucketer places the task in none of its output groups: not timed, not
due, not all-day. -/
theorem timeline_completed_excluded (isToday : Bool) (s e : String)
    (ts : List TaskProps) (t : TaskProps) (hc : isCompleted t = true) :
    t ∉ (timelineTasks isToday s e ts).1 ∧
    t ∉ (timelineTasks isToday s e ts).2.1 ∧
    t ∉ (timelineTasks isToday s e ts).2.2 := by
  have hsched : scheduledForToday isToday s e t = false := by
    simp [scheduledForToday, hc]
  have hdue : dueFilter isToday s e t = false := by
    simp [dueFilter, hc]
  have htimed : timedPred isToday s e t = false := by
    simp [timedPred, hsched]
  have hall : allDayPred isToday s e t = false := by
    simp [allDayPred, hsched]
  rw [timelineTasks_eq, classifyGo_eq]
  refine ⟨?_, ?_, ?_⟩ <;> intro hmem
  · rw [List.mem_filter, htimed] at hmem
    exact absurd hmem.2 (by simp)
  · rw [List.mem_filter, hdue] at hmem
    exact absurd hmem.2 (by simp)
  · rw [pruneNestedChildren, List.mem_filter] at hmem
    rw [List.mem_filter, hall] at hmem
    exact absurd hmem.1.2 (by simp)

/-- Witness for C4: a completed task scheduled and due inside today's
window still lands in no group. -/
theorem timeline_completed_excluded_witness :
    ({ id := "c1", scheduled := some "2024-01-10T09:00",
       due := some "2024-01-09", completed := true } : TaskProps) ∉
        (timelineTasks true "2024-01-10" "2024-01-11"
          [{ id := "c1", scheduled := some "2024-01-10T09:00",
             due := some "2024-01-09", completed := true }]).1 ∧
    ({ id := "c1", scheduled := some "2024-01-10T09:00",
       due := some "2024-01-09", completed := true } : TaskProps) ∉
        (timelineTasks true "2024-01-10" "2024-01-11"
          [{ id := "c1", scheduled := some "2024-01-10T09:00",
             due := some "2024-01-09", completed := true }]).2.1 ∧
    ({ id := "c1", scheduled := some "2024-01-10T09:00",
       due := some "2024-01-09", completed := true } : TaskProps) ∉
        (timelineTasks true "2024-01-10" "2024-01-11"
          [{ id := "c1", scheduled := some "2024-01-10T09:00",
             due := some "2024-01-09", completed := true }]).2.2 :=
  timeline_completed_excluded true "2024-01-10" "2024-01-11"
    [{ id := "c1", scheduled := some "2024-01-10T09:00",
       due := some "2024-01-09", completed := true }]
    { id := "c1", scheduled := some "2024-01-10T09:00",
      due := some "2024-01-09", completed := true } rfl

/-- C2. Every all-day item surviving the pruning pass shares no id with a
timed-scheduled task, is not a direct child of one (its `parent` id names
no timed task), and its ancestor chain through the all-day list reaches no
timed-scheduled id at all; in particular a child of a timed parent never
appears in the all-day output. -/
theorem timeline_allday_prune_sound (isToday : Bool) (s e : String)
    (ts : List TaskProps) (t : TaskProps)
    (hmem : t ∈ (timelineTasks isToday s e ts).2.2) :
    (∀ p ∈ (timelineTasks isToday s e ts).1,
      t.id ≠ p.id ∧ t.parent ≠ some p.id) ∧
    reachesScheduled (classifyGo isToday s e ts).2.2
      (((timelineTasks isToday s e ts).1).map (fun x => x.id))
      ((classifyGo isToday s e ts).2.2).length t = false := by
  rw [timelineTasks_eq] at hmem ⊢
  rw [pruneNestedChildren, List.mem_filter, Bool.not_eq_true',
    Bool.or_eq_false_iff] at hmem
  have htA := hmem.1
  have hcon := hmem.2.1
  have hreach := hmem.2.2
  have hnotin : t.id ∉ (classifyGo isToday s e ts).1.map (fun x => x.id) := by
    intro hin
    have hc2 : (List.map (fun u => u.id) (classifyGo isToday s e ts).1).contains
        t.id = true := by
      simpa [List.contains] using List.elem_iff.mpr hin
    rw [hcon] at hc2
    cases hc2
  refine ⟨?_, hreach⟩
  intro p hp
  have hpid : p.id ∈ (classifyGo isToday s e ts).1.map (fun x => x.id) :=
    List.mem_map_of_mem (fun x => x.id) hp
  refine ⟨fun hid => hnotin (hid ▸ hpid), ?_⟩
  intro hpar
  obtain ⟨n, hn⟩ := Nat.exists_eq_succ_of_ne_zero
    (Nat.pos_iff_ne_zero.mp (List.length_pos.mpr (List.ne_nil_of_mem htA)))
  rw [hn] at hreach
  rw [reachesScheduled, hpar] at hreach
  rw [Bool.or_eq_false_iff] at hreach
  have hc3 : (List.map (fun u => u.id) (classifyGo isToday s e ts).1).contains
      p.id = true := by
    simpa [List.contains] using List.elem_iff.mpr hpid
  rw [hreach.1] at hc3
  cases hc3

/-- Witness for C2: with parent `P` timed at `2024-01-10T09:00`, child `C`
(parent id `P`) all-day, and an unrelated all-day task `D`, the all-day
output is exactly `[D]` (so `C` was pruned), and `D` satisfies the
suppression properties. -/
theorem timeline_allday_prune_sound_witness :
    (timelineTasks true "2024-01-10" "2024-01-11"
      [{ id := "P", scheduled := some "2024-01-10T09:00" },
       { id := "C", parent := some "P", scheduled := some "2024-01-10" },
       { id := "D", scheduled := some "2024-01-10" }]).2.2 =
      [{ id := "D", scheduled := some "2024-01-10" }] ∧
    (∀ p ∈ (timelineTasks true "2024-01-10" "2024-01-11"
      [{ id := "P", scheduled := some "2024-01-10T09:00" },
       { id := "C", parent := some "P", scheduled := some "2024-01-10" },
       { id := "D", scheduled := some "2024-01-10" }]).1,
      ({ id := "D", scheduled := some "2024-01-10" } : TaskProps).id ≠ p.id ∧
      ({ id := "D", scheduled := some "2024-01-10" } : TaskProps).parent ≠
        some p.id) :=
  ⟨by decide,
    (timeline_allday_prune_sound true "2024-01-10" "2024-01-11"
      [{ id := "P", scheduled := some "2024-01-10T09:00" },
       { id := "C", parent := some "P", scheduled := some "2024-01-10" },
       { id := "D", scheduled := some "2024-01-10" }]
      { id := "D", scheduled := some "2024-01-10" } (by decide)).1⟩

/-- The spec's window-overlap test for a `due` value:
`due >= startISO || (isToday && due < endISO)`. -/
def specDueOverlap (isToday : Bool) (startISO endISO d : String) : Prop :=
  jsLe startISO d = true ∨ (isToday = true ∧ jsLt d endISO = true)

/-- Counterexample to C5 as stated: the task `a` (scheduled far beyond the
window at `2024-02-01`, due `2024-01-10`) is non-completed, not
scheduled-for-the-window, and its `due` value passes the window-overlap
test for today's window `[2024-01-10, 2024-01-11)`, yet the bucketer does
not place it in the due group — the due branch additionally requires
`!task.scheduled || task.scheduled < endISO`. -/
theorem timeline_due_placement_counterexample :
    isCompleted
        ({ id := "a", scheduled := some "2024-02-01",
           due := some "2024-01-10" } : TaskProps) = false ∧
    scheduledForToday true "2024-01-10" "2024-01-11"
        { id := "a", scheduled := some "2024-02-01",
          due := some "2024-01-10" } = false ∧
    ({ id := "a", scheduled := some "2024-02-01",
       due := some "2024-01-10" } : TaskProps).due = some "2024-01-10" ∧
    specDueOverlap true "2024-01-10" "2024-01-11" "2024-01-10" ∧
    ({ id := "a", scheduled := some "2024-02-01",
       due := some "2024-01-10" } : TaskProps) ∉
      (timelineTasks true "2024-01-10" "2024-01-11"
        [{ id := "a", scheduled := some "2024-02-01",
           due := some "2024-01-10" }]).2.1 := by
  refine ⟨rfl, by decide, rfl, Or.inl (by decide), by decide⟩

/-- C5 (amended). A non-completed task that is not
scheduled-for-the-window, whose `due` value is set and passes the
window-overlap test, and whose `scheduled` value is unset/empty or less
than the window end, is placed in the due group; and every task whose
`scheduled` value falls inside the window is never placed in the due
group. -/
theorem timeline_due_placement (isToday : Bool) (s e : String)
    (ts : List TaskProps) (t : TaskProps) (hmem : t ∈ ts) :
    ((isCompleted t = false ∧ scheduledForToday isToday s e t = false ∧
        jsTruthyS t.due = true ∧ specDueOverlap isToday s e (sval t.due) ∧
        (jsTruthyS t.scheduled = false ∨ jsLt (sval t.scheduled) e = true)) →
      t ∈ (timelineTasks isToday s e ts).2.1) ∧
    ((jsTruthyS t.scheduled = true ∧ jsLe s (sval t.scheduled) = true ∧
        jsLt (sval t.scheduled) e = true) →
      t ∉ (timelineTasks isToday s e ts).2.1) := by
  rw [timelineTasks_eq]
  constructor
  · rintro ⟨hc, hsched, hdue, hov, hsc⟩
    rw [mem_classify_due hmem, dueFilter, hc, hsched, hdue]
    rcases hov with h | ⟨h1, h2⟩
    · rcases hsc with h3 | h3 <;> simp [h, h3]
    · rcases hsc with h3 | h3 <;> simp [h1, h2, h3]
  · rintro ⟨h1, h2, h3⟩ hin
    rw [mem_classify_due hmem] at hin
    have hcomp : isCompleted t = false := by
      simp only [dueFilter, Bool.and_eq_true, Bool.not_eq_true'] at hin
      tauto
    have hsched : scheduledForToday isToday s e t = false := by
      simp only [dueFilter, Bool.and_eq_true, Bool.not_eq_true'] at hin
      tauto
    have : scheduledForToday isToday s e t = true := by
      rw [scheduledForToday, hcomp, h1, h3, h2]
      simp
    rw [this] at hsched
    cases hsched

/-- Witness for C5 (amended): a due-only task lands in the due group, and
a task scheduled inside the window stays out of it. -/
theorem timeline_due_placement_witness :
    ({ id := "d1", due := some "2024-01-05" } : TaskProps) ∈
      (timelineTasks false "2024-01-01" "2024-01-08"
        [{ id := "d1", due := some "2024-01-05" }]).2.1 ∧
    ({ id := "s1", scheduled := some "2024-01-10T09:00",
       due := some "2024-01-10" } : TaskProps) ∉
      (timelineTasks true "2024-01-10" "2024-01-11"
        [{ id := "s1", scheduled := some "2024-01-10T09:00",
           due := some "2024-01-10" }]).2.1 :=
  ⟨(timeline_due_placement false "2024-01-01" "2024-01-08"
      [{ id := "d1", due := some "2024-01-05" }]
      { id := "d1", due := some "2024-01-05" } (by decide)).1
      ⟨rfl, by decide, rfl, Or.inl (by decide), Or.inl rfl⟩,
    (timeline_due_placement true "2024-01-10" "2024-01-11"
      [{ id := "s1", scheduled := some "2024-01-10T09:00",
         due := some "2024-01-10" }]
      { id := "s1", scheduled := some "2024-01-10T09:00",
        due := some "2024-01-10" } (by decide)).2
      ⟨rfl, by decide, by decide⟩⟩

/-- C10. Every calendar event whose `endISO` is at or before the current
wall-clock time is excluded from both the all-day and the timed event
outputs of every window. -/
theorem timeline_past_events_excluded (now s e : String)
    (events : List EventProps) (ev : EventProps)
    (h : jsLe ev.endISO now = true) :
    ev ∉ allDayEvents now s e events ∧ ev ∉ atTimeEvents now s e events := by
  have key : ev ∉ timelineEvents now s e events := by
    intro hmem
    rw [timelineEvents, List.mem_filter] at hmem
    have hp := hmem.2
    rw [h] at hp
    simp at hp
  constructor <;> intro hmem
  · exact key (List.mem_of_mem_filter (by rw [allDayEvents] at hmem; exact hmem))
  · exact key (List.mem_of_mem_filter (by rw [atTimeEvents] at hmem; exact hmem))

/-- Witness for C10: an event from `08:00` to `09:00` today overlaps the
window `[2024-01-10, 2024-01-11)` but has already ended by noon, so it is
in neither event output. -/
theorem timeline_past_events_excluded_witness :
    jsLe ({ id := "e1", startISO := "2024-01-10T08:00",
            endISO := "2024-01-10T09:00" } : EventProps).endISO
        "2024-01-10T12:00" = true ∧
    jsLt "2024-01-10"
      ({ id := "e1", startISO := "2024-01-10T08:00",
         endISO := "2024-01-10T09:00" } : EventProps).endISO = true ∧
    jsLt ({ id := "e1", startISO := "2024-01-10T08:00",
            endISO := "2024-01-10T09:00" } : EventProps).startISO
        "2024-01-11" = true ∧
    ({ id := "e1", startISO := "2024-01-10T08:00",
       endISO := "2024-01-10T09:00" } : EventProps) ∉
      allDayEvents "2024-01-10T12:00" "2024-01-10" "2024-01-11"
        [{ id := "e1", startISO := "2024-01-10T08:00",
           endISO := "2024-01-10T09:00" }] ∧
    ({ id := "e1", startISO := "2024-01-10T08:00",
       endISO := "2024-01-10T09:00" } : EventProps) ∉
      atTimeEvents "2024-01-10T12:00" "2024-01-10" "2024-01-11"
        [{ id := "e1", startISO := "2024-01-10T08:00",
           endISO := "2024-01-10T09:00" }] :=
  ⟨by decide, by decide, by decide,
    (timeline_past_events_excluded "2024-01-10T12:00" "2024-01-10"
      "2024-01-11"
      [{ id := "e1", startISO := "2024-01-10T08:00",
         endISO := "2024-01-10T09:00" }]
      { id := "e1", startISO := "2024-01-10T08:00",
        endISO := "2024-01-10T09:00" } (by decide)).1,
    (timeline_past_events_excluded "2024-01-10T12:00" "2024-01-10"
      "2024-01-11"
      [{ id := "e1", startISO := "2024-01-10T08:00",
         endISO := "2024-01-10T09:00" }]
      { id := "e1", startISO := "2024-01-10T08:00",
        endISO := "2024-01-10T09:00" } (by decide)).2⟩

/-- C7. A drag cancellation (`onDragCancel`) sets the drag slot to null
and changes nothing else: the resulting state is the pre-drag state with
`dragData := none`; in particular no task mutation is issued and the task
table equals its pre-drag snapshot. -/
theorem onDragCancel_clears_only_dragData (s : AppState) :
    (onDragCancel s).dragData = none ∧ (onDragCancel s).tasks = s.tasks ∧
    onDragCancel s = { s with dragData := none } :=
  ⟨rfl, rfl, rfl⟩

/-- C6. Patching a task whose record has `scheduled` set with the
delete-schedule sentinel saves a record whose `scheduled` field is absent
(`none`), not set to an empty string. -/
theorem patchTasks_delete_sentinel (saveOk : TaskRecord → Bool)
    (tasks : List (String × TaskProps)) (id : String) (t : TaskProps)
    (task : TaskRecord) (_hfound : lookupTask tasks id = some t)
    (_hset : t.scheduled.isSome = true)
    (hdel : task.scheduled = some TaskActions.DELETE) :
    ∀ w ∈ (patchTasks saveOk tasks [id] task).writes,
      w.1.scheduled = none := by
  intro w hw
  have hsaved : (savedTaskFor tasks task id).scheduled = none := by
    rw [savedTaskFor]
    simp [hdel]
  by_cases hOk : saveOk (savedTaskFor tasks task id)
  · simp only [patchTasks, patchTasksGo, hOk, if_true, List.mem_singleton,
      List.mem_cons, List.not_mem_nil, or_false] at hw
    rw [hw]
    exact hsaved
  · simp only [patchTasks, patchTasksGo, hOk, if_false, Bool.false_eq_true,
      List.mem_singleton, List.mem_cons, List.not_mem_nil, or_false] at hw
    rw [hw]
    exact hsaved

/-- Witness for C6: deleting the schedule of task `a`
(`scheduled = 2024-01-01`) saves a record with no `scheduled` field. -/
theorem patchTasks_delete_sentinel_witness :
    (patchTasks (fun _ => true)
        [("a", { id := "a", scheduled := some "2024-01-01" })] ["a"]
        { scheduled := some TaskActions.DELETE }).writes.all
      (fun w => w.1.scheduled == none) = true := by
  apply List.all_eq_true.mpr
  intro w hw
  rw [patchTasks_delete_sentinel (fun _ => true)
    [("a", { id := "a", scheduled := some "2024-01-01" })] "a"
    { id := "a", scheduled := some "2024-01-01" }
    { scheduled := some TaskActions.DELETE } (by decide) rfl rfl w hw]
  rfl

/-- Counterexample to C3 as stated: patching ids `a`, `b`, `c` where the
collaborator write for `b` rejects issues writes for `a` and `b` only —
the rejection of the awaited `saveTask` aborts the loop, so `c` is never
written, contradicting "ids 1 and 3 are still updated". -/
theorem patchTasks_abort_counterexample :
    (patchTasks (fun r => !(r.id == some "b"))
        [("a", { id := "a" }), ("b", { id := "b" }), ("c", { id := "c" })]
        ["a", "b", "c"] { due := some "2024-02-02" }).err = some "b" ∧
    (∀ w ∈ (patchTasks (fun r => !(r.id == some "b"))
        [("a", { id := "a" }), ("b", { id := "b" }), ("c", { id := "c" })]
        ["a", "b", "c"] { due := some "2024-02-02" }).writes,
      w.1.id ≠ some "c") ∧
    ((patchTasks (fun r => !(r.id == some "b"))
        [("a", { id := "a" }), ("b", { id := "b" }), ("c", { id := "c" })]
        ["a", "b", "c"] { due := some "2024-02-02" }).writes.map
          (fun w => (w.1.id, w.2))) =
      [(some "a", true), (some "b", false)] := by
  refine ⟨rfl, ?_, rfl⟩
  decide

/-- C3 (amended). `patchTasks` processes ids sequentially, but a rejection
of the Task Store write aborts the batch: when no write rejects, every id
is written in order; when one rejects, exactly the ids before it are
written (all accepted), the failing id's write is attempted and rejected,
the rejection is reported (propagates, not retried), and the ids after it
are never processed. -/
theorem patchTasks_sequential (saveOk : TaskRecord → Bool)
    (tasks : List (String × TaskProps)) (task : TaskRecord)
    (ids : List String) :
    ((patchTasks saveOk tasks ids task).err = none →
      (patchTasks saveOk tasks ids task).writes =
        ids.map (fun id => (savedTaskFor tasks task id, true))) ∧
    (∀ fid, (patchTasks saveOk tasks ids task).err = some fid →
      ∃ k, ids.get? k = some fid ∧
        saveOk (savedTaskFor tasks task fid) = false ∧
        (∀ id ∈ ids.take k, saveOk (savedTaskFor tasks task id) = true) ∧
        (patchTasks saveOk tasks ids task).writes =
          (ids.take k).map (fun id => (savedTaskFor tasks task id, true)) ++
            [(savedTaskFor tasks task fid, false)]) := by
  have main : ∀ ids : List String,
      ((patchTasksGo saveOk tasks task ids).2 = none →
        (patchTasksGo saveOk tasks task ids).1 =
          ids.map (fun id => (savedTaskFor tasks task id, true))) ∧
      (∀ fid, (patchTasksGo saveOk tasks task ids).2 = some fid →
        ∃ k, ids.get? k = some fid ∧
          saveOk (savedTaskFor tasks task fid) = false ∧
          (∀ id ∈ ids.take k, saveOk (savedTaskFor tasks task id) = true) ∧
          (patchTasksGo saveOk tasks task ids).1 =
            (ids.take k).map
              (fun id => (savedTaskFor tasks task id, true)) ++
              [(savedTaskFor tasks task fid, false)]) := by
    intro ids
    induction ids with
    | nil => exact ⟨fun _ => rfl, fun fid h => by cases h⟩
    | cons id rest ih =>
      by_cases hOk : saveOk (savedTaskFor tasks task id)
      · constructor
        · intro he
          simp only [patchTasksGo, hOk, if_true] at he ⊢
          rw [List.map_cons, ih.1 he]
        · intro fid he
          simp only [patchTasksGo, hOk, if_true] at he ⊢
          obtain ⟨k, hk1, hk2, hk3, hk4⟩ := ih.2 fid he
          refine ⟨k + 1, by simpa using hk1, hk2, ?_, ?_⟩
          · intro i hi
            rw [List.take_succ_cons, List.mem_cons] at hi
            rcases hi with hi | hi
            · rw [hi]; exact hOk
            · exact hk3 i hi
          · rw [List.take_succ_cons, List.map_cons, List.cons_append, hk4]
      · constructor
        · intro he
          simp only [patchTasksGo] at he
          rw [if_neg hOk] at he
          exact Option.noConfusion he
        · intro fid he
          simp only [patchTasksGo] at he ⊢
          rw [if_neg hOk] at he ⊢
          rw [Option.some_inj] at he
          subst he
          exact ⟨0, rfl, Bool.eq_false_iff.mpr hOk, by simp, by simp⟩
  exact main ids

/-- Witness for C3 (amended): in the `a`, `b`, `c` scenario where `b`'s
write rejects, the failing position is `k = 1`, `a`'s write was accepted,
and the attempted writes are exactly `a` then the rejected `b`. -/
theorem patchTasks_sequential_witness :
    ∃ k, (["a", "b", "c"] : List String).get? k = some "b" ∧
      (fun r : TaskRecord => !(r.id == some "b"))
        (savedTaskFor
          [("a", { id := "a" }), ("b", { id := "b" }), ("c", { id := "c" })]
          { due := some "2024-02-02" } "b") = false ∧
      (∀ id ∈ (["a", "b", "c"] : List String).take k,
        (fun r : TaskRecord => !(r.id == some "b"))
          (savedTaskFor
            [("a", { id := "a" }), ("b", { id := "b" }),
             ("c", { id := "c" })]
            { due := some "2024-02-02" } id) = true) ∧
      (patchTasks (fun r => !(r.id == some "b"))
        [("a", { id := "a" }), ("b", { id := "b" }), ("c", { id := "c" })]
        ["a", "b", "c"] { due := some "2024-02-02" }).writes =
        ((["a", "b", "c"] : List String).take k).map
          (fun id => (savedTaskFor
            [("a", { id := "a" }), ("b", { id := "b" }),
             ("c", { id := "c" })]
            { due := some "2024-02-02" } id, true)) ++
          [(savedTaskFor
            [("a", { id := "a" }), ("b", { id := "b" }), ("c", { id := "c" })]
            { due := some "2024-02-02" } "b", false)] :=
  (patchTasks_sequential (fun r => !(r.id == some "b"))
    [("a", { id := "a" }), ("b", { id := "b" }), ("c", { id := "c" })]
    { due := some "2024-02-02" } ["a", "b", "c"]).2 "b" rfl

/-- Counterexample to C8 as stated: patching the single id `x` in an
empty task table raises nothing, but a write IS issued for `x` — the
merge `{ ...undefined, ...partial }` yields the partial's fields, and
`saveTask` is still awaited on that record. The claim's "no write is made
for that id" fails. -/
theorem patchTasks_missing_id_counterexample :
    (patchTasks (fun _ => true) [] ["x"]
        { scheduled := some "2024-03-03" }).writes =
      [({ scheduled := some "2024-03-03" }, true)] ∧
    (patchTasks (fun _ => true) [] ["x"]
        { scheduled := some "2024-03-03" }).err = none := by
  refine ⟨?_, rfl⟩
  decide

/-- The record `setters.patchTasks` saves for an id with no entry in the
task table: the patch spread over the empty object, with the
delete-sentinel case applied. -/
def recordOfPatch (task : TaskRecord) : TaskRecord :=
  if task.scheduled == some TaskActions.DELETE then
    { spreadMerge {} task with scheduled := none }
  else spreadMerge {} task

theorem spreadMerge_empty (task : TaskRecord) :
    spreadMerge {} task = task := by
  cases task with
  | mk id type scheduled due completed completion parent =>
    simp only [spreadMerge]
    cases id <;> cases type <;> cases scheduled <;> cases due <;>
      cases completed <;> cases completion <;> cases parent <;> rfl

/-- C8 (amended). A patch for an id with no record in the task table
raises nothing and behaves like a patch of the empty record: the merged
record carries only the partial's fields (the spread of `undefined` is
the empty object), `saveTask` is still invoked with that record (rather
than being skipped), and — provided that write is accepted — the
remaining ids are processed exactly as they would be on their own. -/
theorem patchTasks_missing_id (saveOk : TaskRecord → Bool)
    (tasks : List (String × TaskProps)) (task : TaskRecord) (id : String)
    (rest : List String) (h : lookupTask tasks id = none) :
    savedTaskFor tasks task id = recordOfPatch task ∧
    (saveOk (recordOfPatch task) = true →
      (patchTasks saveOk tasks (id :: rest) task).writes =
        (recordOfPatch task, true) ::
          (patchTasks saveOk tasks rest task).writes ∧
      (patchTasks saveOk tasks (id :: rest) task).err =
        (patchTasks saveOk tasks rest task).err) := by
  have hsaved : savedTaskFor tasks task id = recordOfPatch task := by
    rw [savedTaskFor, recordOfPatch, h]
  refine ⟨hsaved, ?_⟩
  intro hOk
  constructor
  · simp only [patchTasks, patchTasksGo, hsaved, hOk, if_true]
  · simp only [patchTasks, patchTasksGo, hsaved, hOk, if_true]

/-- Witness for C8 (amended): a patch for missing id `x` followed by
present id `a` saves the partial-only record for `x` and then processes
`a` normally. -/
theorem patchTasks_missing_id_witness :
    savedTaskFor [("a", { id := "a" })] { scheduled := some "2024-03-03" }
        "x" =
      recordOfPatch { scheduled := some "2024-03-03" } ∧
    ((patchTasks (fun _ => true) [("a", { id := "a" })] ["x", "a"]
        { scheduled := some "2024-03-03" }).writes =
      (recordOfPatch { scheduled := some "2024-03-03" }, true) ::
        (patchTasks (fun _ => true) [("a", { id := "a" })] ["a"]
          { scheduled := some "2024-03-03" }).writes ∧
      (patchTasks (fun _ => true) [("a", { id := "a" })] ["x", "a"]
        { scheduled := some "2024-03-03" }).err =
        (patchTasks (fun _ => true) [("a", { id := "a" })] ["a"]
          { scheduled := some "2024-03-03" }).err) :=
  ⟨(patchTasks_missing_id (fun _ => true) [("a", { id := "a" })]
      { scheduled := some "2024-03-03" } "x" ["a"] (by decide)).1,
    (patchTasks_missing_id (fun _ => true) [("a", { id := "a" })]
      { scheduled := some "2024-03-03" } "x" ["a"] (by decide)).2 rfl⟩

/-- The claim's leaf-rendering predicate as stated: kind `parent` or
`link`, or a `scheduled` value strictly greater than the block's nominal
scheduled time. -/
def specRendersAsLink (scheduled : Option String) (task : TaskProps) :
    Prop :=
  task.type = "parent" ∨ task.type = "link" ∨
    (∃ v b, task.scheduled = some v ∧ scheduled = some b ∧ jsLt b v = true)

/-- Counterexample to C9 as stated: in a block with no nominal scheduled
time (`scheduled = null`), a plain task carrying any `scheduled` value is
rendered as a link (the source's `!scheduled` disjunct), although the
claim's predicate does not hold — it requires a nominal time to compare
against. -/
theorem group_renders_link_counterexample :
    groupRendersAsLink none
        { id := "t9", scheduled := some "2024-01-01" } = true ∧
    ¬ specRendersAsLink none { id := "t9", scheduled := some "2024-01-01" } := by
  constructor
  · decide
  · rintro (h | h | ⟨v, b, _hv, hb, _hlt⟩)
    · exact absurd h (by decide)
    · exact absurd h (by decide)
    · exact Option.noConfusion hb

/-- C9 (amended). In a heading-level group an item renders as a
reference/link exactly when its kind is `parent` or `link`, or when it
carries a non-empty `scheduled` value and the block's nominal scheduled
time is null/empty or strictly less than that value; every other item
renders as a full editable task row. -/
def specRendersAsLinkFixed (scheduled : Option String) (task : TaskProps) :
    Prop :=
  task.type = "parent" ∨ task.type = "link" ∨
    (∃ v, task.scheduled = some v ∧ v ≠ "" ∧
      (scheduled = none ∨ scheduled = some "" ∨
        ∃ b, scheduled = some b ∧ jsLt b v = true))

theorem group_renders_link_rule (scheduled : Option String)
    (task : TaskProps) :
    groupRendersAsLink scheduled task = true ↔
      specRendersAsLinkFixed scheduled task := by
  unfold groupRendersAsLink specRendersAsLinkFixed jsTruthyS sval
  cases hs : task.scheduled with
  | none =>
    cases scheduled <;>
      simp [Bool.or_eq_true, beq_iff_eq]
  | some v =>
    cases hb : scheduled with
    | none =>
      simp only [Bool.or_eq_true, Bool.and_eq_true, beq_iff_eq,
        Bool.not_eq_true', beq_eq_false_iff_ne, Option.getD_some,
        Option.some.injEq, exists_eq_left', Bool.not_true, Bool.not_false]
      tauto
    | some b =>
      by_cases hbe : b = ""
      · subst hbe
        simp only [Bool.or_eq_true, Bool.and_eq_true, beq_iff_eq,
          Bool.not_eq_true', beq_eq_false_iff_ne, Option.getD_some,
          Option.some.injEq, exists_eq_left']
        simp
        tauto
      · simp only [Bool.or_eq_true, Bool.and_eq_true, beq_iff_eq,
          Bool.not_eq_true', beq_eq_false_iff_ne, Option.getD_some,
          Option.some.injEq, exists_eq_left']
        simp [hbe]
        tauto

/-- Witness for C9 (amended): a plain task scheduled after the block's
nominal time renders as a link, and one scheduled at the block's nominal
time renders as a full row. -/
theorem group_renders_link_rule_witness :
    specRendersAsLinkFixed (some "2024-01-10")
        { id := "g1", scheduled := some "2024-01-11" } ∧
    ¬ specRendersAsLinkFixed (some "2024-01-10")
        { id := "g2", scheduled := some "2024-01-10" } :=
  ⟨(group_renders_link_rule (some "2024-01-10")
      { id := "g1", scheduled := some "2024-01-11" }).mp (by decide),
    fun h => absurd ((group_renders_link_rule (some "2024-01-10")
      { id := "g2", scheduled := some "2024-01-10" }).mpr h) (by decide)⟩

end TimeRuler
